import Mathlib

/-! Verification of the Zephra AQI forecasting pipeline
(src/backend/feature_engineering.py, src/backend/aqi_model_trainer.py,
src/backend/aqi_predictor.py).

Numeric cell values are modelled as rationals (`ℚ`); a missing (NaN) cell is
`Option.none`.  Pandas columns become Lean lists indexed by row position, and
cell-producing pandas operations (`shift`, `rolling`) become functions from a
row index to `Option ℚ`.  Definitions come first, then the supporting lemmas,
then the theorems about the claimed properties. -/

namespace Zephra

/-! Definitions: AQI category functions.

The trainer embeds the inner function of
`AQIModelTrainer.calculate_aqi_category_accuracy`
(aqi_model_trainer.py lines 177-189) and the band order at lines 201-202;
the predictor embeds `AQIPredictor._get_aqi_category`
(aqi_predictor.py lines 227-278). -/

/-- Trainer-side category name for a numeric AQI value
(aqi_model_trainer.py lines 177-189). -/
def get_aqi_category (aqi : ℚ) : String :=
  if aqi ≤ 50 then "Good"
  else if aqi ≤ 100 then "Moderate"
  else if aqi ≤ 150 then "Unhealthy_Sensitive"
  else if aqi ≤ 200 then "Unhealthy"
  else if aqi ≤ 300 then "Very_Unhealthy"
  else "Hazardous"

/-- Band order used by the trainer for within-one-band accuracy
(aqi_model_trainer.py lines 201-202). -/
def categories_order : List String :=
  ["Good", "Moderate", "Unhealthy_Sensitive",
   "Unhealthy", "Very_Unhealthy", "Hazardous"]

/-- Category record returned by `AQIPredictor._get_aqi_category`
(aqi_predictor.py lines 227-278); the long health-message strings are kept
as the distinguishing prefix of the source text. -/
structure CategoryInfo where
  level : ℕ
  name : String
  color : String
  message : String
  deriving Repr, DecidableEq

/-- Predictor-side category mapping (aqi_predictor.py lines 237-278). -/
def predictor_get_aqi_category (aqi_value : ℚ) : CategoryInfo :=
  if aqi_value ≤ 50 then
    ⟨0, "Good", "#00E400",
     "Air quality is satisfactory, and air pollution poses little or no risk."⟩
  else if aqi_value ≤ 100 then
    ⟨1, "Moderate", "#FFFF00",
     "Air quality is acceptable."⟩
  else if aqi_value ≤ 150 then
    ⟨2, "Unhealthy for Sensitive Groups", "#FF7E00",
     "Members of sensitive groups may experience health effects."⟩
  else if aqi_value ≤ 200 then
    ⟨3, "Unhealthy", "#FF0000",
     "Some members of the general public may experience health effects."⟩
  else if aqi_value ≤ 300 then
    ⟨4, "Very Unhealthy", "#99004C",
     "Health alert: The risk of health effects is increased for everyone."⟩
  else
    ⟨5, "Hazardous", "#7E0023",
     "Health warning of emergency conditions."⟩

/-! Definitions: lag and rolling-window features.

`AQIFeatureEngineer.create_lag_features` (feature_engineering.py lines
61-83) adds, for each base column and each lag in `[1, 6, 12, 24]`, the
column `df[col].shift(lag)`.  `create_rolling_features` (lines 85-125) adds,
for each base column and each window in `[3, 6, 12, 24]`, the columns
`df[col].rolling(window, min_periods=1).mean() / .std() / .min() / .max()`.
A pandas column over `n` rows is modelled as a cell function from the row
index; cells are meaningful for indices `i < xs.length`. -/

/-- Configured lag offsets (feature_engineering.py line 62). -/
def lags : List ℕ := [1, 6, 12, 24]

/-- Configured rolling window sizes (feature_engineering.py line 86). -/
def windows : List ℕ := [3, 6, 12, 24]

/-- Cell `i` of pandas `df[col].shift(lag)` over base series `xs`
(feature_engineering.py line 81): the base value `lag` rows earlier, NaN
(`none`) for the first `lag` rows. -/
def lagCell (xs : List ℚ) (lag i : ℕ) : Option ℚ :=
  if lag ≤ i then xs[i - lag]? else none

/-- Trailing window that pandas `rolling(window=w, min_periods=1)`
sees at row `i`: rows `i + 1 - w` (clamped at 0) through `i`. -/
def windowSlice (xs : List ℚ) (w i : ℕ) : List ℚ :=
  (xs.take (i + 1)).drop (i + 1 - w)

/-- Arithmetic mean of a list of rationals. -/
def mean (xs : List ℚ) : ℚ := xs.sum / xs.length

/-- Sample variance with ddof = 1, the pandas default for `std`. -/
def sampleVar (xs : List ℚ) : ℚ :=
  ((xs.map fun x => (x - mean xs) ^ 2).sum) / ((xs.length : ℚ) - 1)

/-- Cell `i` of `rolling(w, min_periods=1).mean()`: defined whenever at
least one observation is in the window. -/
def rollingMeanCell (xs : List ℚ) (w i : ℕ) : Option ℚ :=
  if windowSlice xs w i = [] then none else some (mean (windowSlice xs w i))

/-- Cell `i` of `rolling(w, min_periods=1).std()`: even with
`min_periods=1`, the sample standard deviation (ddof = 1) of a single
observation is NaN, so the cell is defined only with at least 2
observations.  The carried value is the sample variance (the source stores
its square root, irrational in general); definedness is identical. -/
def rollingStdCell (xs : List ℚ) (w i : ℕ) : Option ℚ :=
  if 2 ≤ (windowSlice xs w i).length then some (sampleVar (windowSlice xs w i))
  else none

/-- Cell `i` of `rolling(w, min_periods=1).min()`. -/
def rollingMinCell (xs : List ℚ) (w i : ℕ) : Option ℚ :=
  (windowSlice xs w i).min?

/-- Cell `i` of `rolling(w, min_periods=1).max()`. -/
def rollingMaxCell (xs : List ℚ) (w i : ℕ) : Option ℚ :=
  (windowSlice xs w i).max?

/-! Definitions: prepare_data row accounting.

`AQIModelTrainer.prepare_data` (aqi_model_trainer.py lines 42-66) engineers
features, adds the shifted target `df[target].shift(-horizon)`, and calls
`AQIFeatureEngineer.prepare_for_training` with `drop_na=True`
(feature_engineering.py lines 267-299), which keeps exactly the rows where
every feature cell and the shifted target are defined.  Time features,
meteorological indices and pollutant interactions are total functions of
base fields that are present and numeric, so for well-formed records the
only sources of missing cells are the lag columns, the rolling std column,
and the shifted target; those are modelled below. -/

/-- Cell `i` of pandas `shift(-horizon)`: the base value `horizon` rows
later, NaN (`none`) for the last `horizon` rows
(aqi_model_trainer.py line 59). -/
def negShiftCell (xs : List ℚ) (horizon i : ℕ) : Option ℚ := xs[i + horizon]?

/-- Predicate: every lag and rolling feature generated from base column `c`
is defined at row `i` (feature_engineering.py lines 254-263 generate lag
columns for each lag in `lags` and the four rolling columns for each window
in `windows`). -/
def rowComplete (c : List ℚ) (i : ℕ) : Bool :=
  (lags.all fun lag => (lagCell c lag i).isSome) &&
  (windows.all fun w =>
    (rollingMeanCell c w i).isSome && (rollingStdCell c w i).isSome &&
    (rollingMinCell c w i).isSome && (rollingMaxCell c w i).isSome)

/-- Predicate: row `i` survives `prepare_for_training(drop_na=True)` after
the `shift(-horizon)` target is added, i.e. all engineered features over
every base column and the shifted target are defined. -/
def usableRow (cols : List (List ℚ)) (target : List ℚ) (horizon i : ℕ) :
    Bool :=
  (cols.all fun c => rowComplete c i) &&
  (negShiftCell target horizon i).isSome

/-- Number of rows of the feature/target table returned by `prepare_data`:
rows of the engineered table that are kept by the drop-NaN filter. -/
def usableRowCount (cols : List (List ℚ)) (target : List ℚ) (horizon : ℕ) :
    ℕ :=
  ((Finset.range target.length).filter
    fun i => usableRow cols target horizon i = true).card

/-! Definitions: normalization state machine.

`AQIFeatureEngineer.normalize_features` (feature_engineering.py lines
301-325) mutates `self.scaler_params`; it is embedded as a state
transformer on the optional stored parameters.  The feature matrix is a
list of rows; pandas `X.mean()` / `X.std()` act per column, obtained here
by transposing. -/

/-- Error message of feature_engineering.py line 320. -/
def notFittedMsg : String := "Scaler not fitted. Call with fit=True first."

/-- Per-feature normalization parameters (feature_engineering.py lines
314-317).  The source stores the per-column standard deviation; `stds`
carries its square (the sample variance, ddof = 1) so values stay rational.
The fitted/not-fitted state and the data flow are unchanged by this. -/
structure ScalerParams where
  means : List ℚ
  stds : List ℚ
  deriving Repr, DecidableEq

/-- Parameters recorded by a fit: the per-column mean and std dictionary
built at feature_engineering.py lines 314-317 (with `stds` carrying the
squares, see `ScalerParams`). -/
def fitParams (X : List (List ℚ)) : ScalerParams :=
  ⟨X.transpose.map mean, X.transpose.map sampleVar⟩

/-- z-score one row against stored parameters:
`(X - mean) / (std + 1e-8)` (feature_engineering.py line 323). -/
def zscoreRow (p : ScalerParams) (row : List ℚ) : List ℚ :=
  List.zipWith (fun d s => d / (s + 1 / 100000000))
    (List.zipWith (fun x m => x - m) row p.means) p.stds

/-- State-transformer embedding of
`AQIFeatureEngineer.normalize_features(X, fit)`: returns the new stored
state and either the normalized table or the not-fitted error.  With
`fit=True` the parameters are stored first (lines 312-317), so the `None`
check at line 319 can only fire with `fit=False` and nothing stored. -/
def normalize_features (scaler_params : Option ScalerParams)
    (X : List (List ℚ)) (fit : Bool) :
    Option ScalerParams × Except String (List (List ℚ)) :=
  let sp := if fit then some (fitParams X) else scaler_params
  match sp with
  | none => (scaler_params, Except.error notFittedMsg)
  | some p => (some p, Except.ok (X.map (zscoreRow p)))

/-! Definitions: train/test split.

`AQIModelTrainer.train` (aqi_model_trainer.py lines 219-304) starts with a
time-based positional split and optional normalization (lines 235-246);
the subsequent model fitting and metric computation are outside the
claims.  A fit-mode `normalize_features` call always succeeds, so its two
calls are unfolded to their ok results here; the lemma
`normalize_features_fit_unfold` below checks that unfolding. -/

/-- Result record of the split-and-normalize prefix of `train`. -/
structure TrainSplitResult where
  X_train : List (List ℚ)
  X_test : List (List ℚ)
  y_train : List ℚ
  y_test : List ℚ
  scaler : Option ScalerParams
  deriving Repr

/-- Split position `split_idx = int(len(X) * (1 - test_size))` of
aqi_model_trainer.py line 236.  (`int(...)` truncates; for
`0 ≤ test_size ≤ 1` the operand is nonnegative, so truncation equals the
floor used here.) -/
def split_index (X : List (List ℚ)) (test_size : ℚ) : ℕ :=
  (⌊(X.length : ℚ) * (1 - test_size)⌋).toNat

/-- Lines 235-246 of aqi_model_trainer.py: slice both `X` and `y` at
`split_index`, then if `normalize` fit the scaler on the train split and
apply it to both splits. -/
def train_split_normalize (X : List (List ℚ)) (y : List ℚ)
    (test_size : ℚ) (normalize : Bool) : TrainSplitResult :=
  let split_idx := split_index X test_size
  let X_train := X.take split_idx
  let X_test := X.drop split_idx
  let y_train := y.take split_idx
  let y_test := y.drop split_idx
  if normalize then
    let p := fitParams X_train
    ⟨X_train.map (zscoreRow p), X_test.map (zscoreRow p),
     y_train, y_test, some p⟩
  else
    ⟨X_train, X_test, y_train, y_test, none⟩

/-! Definitions: predictor.

`AQIPredictor.predict_24h` (aqi_predictor.py lines 87-158) engineers
features from the recent records, keeps the rows whose features are all
defined (`X.notna().all(axis=1)`), takes the last such row, optionally
normalizes it with the loaded scaler, runs the regressor and maps the
value to a category.  The trained `GradientBoostingRegressor` is abstracted
as a function from the feature vector to the predicted value; the feature
table is the list of engineered rows, each cell possibly missing. -/

/-- Type of one engineered feature row; `none` cells model NaN. -/
abbrev FeatureRow := List (Option ℚ)

/-- Row-completeness test `X.notna().all(axis=1)` for one row
(aqi_predictor.py line 115). -/
def rowAllDefined (r : FeatureRow) : Bool := r.all fun c => c.isSome

/-- Error message of aqi_predictor.py lines 117-120. -/
def insufficientDataMsg : String :=
  "Insufficient data to create complete feature set. Need at least 24-48 hours of historical data."

/-- Forecast fields the claims are about (aqi_predictor.py lines
136-143). -/
structure Forecast where
  predicted_aqi : ℚ
  category : String
  category_level : ℕ
  deriving Repr, DecidableEq

/-- Prediction from one complete feature row (aqi_predictor.py lines
123-139): optional normalization with the loaded scaler, regressor
evaluation, category mapping. -/
def forecastOfRow (model : List ℚ → ℚ) (scaler : Option ScalerParams)
    (r : FeatureRow) : Forecast :=
  let x := r.map fun c => c.getD 0
  let xn := match scaler with
    | some p => zscoreRow p x
    | none => x
  let v := model xn
  let c := predictor_get_aqi_category v
  ⟨v, c.name, c.level⟩

/-- Core of `AQIPredictor.predict_24h` (aqi_predictor.py lines 109-143):
filter to the feature-complete rows, fail with the insufficient-data error
when none remain, otherwise predict from the last one. -/
def predict_24h_core (model : List ℚ → ℚ) (scaler : Option ScalerParams)
    (X : List FeatureRow) : Except String Forecast :=
  match (X.filter rowAllDefined).getLast? with
  | none => Except.error insufficientDataMsg
  | some r => Except.ok (forecastOfRow model scaler r)

/-- Entry of the hourly forecast list (aqi_predictor.py lines 187-193). -/
structure HourlyForecast where
  hour : ℕ
  predicted_aqi : ℚ
  category : String
  category_level : ℕ
  deriving Repr, DecidableEq

/-- Embedding of `AQIPredictor.predict_hourly_sequence` (aqi_predictor.py
lines 160-197): compute the single 24h forecast once, then emit one entry
per hour `1..hours_ahead`, each carrying that same base forecast. -/
def predict_hourly_sequence (model : List ℚ → ℚ)
    (scaler : Option ScalerParams) (X : List FeatureRow)
    (hours_ahead : ℕ) : Except String (List HourlyForecast) :=
  (predict_24h_core model scaler X).map fun base =>
    (List.range hours_ahead).map fun h =>
      ⟨h + 1, base.predicted_aqi, base.category, base.category_level⟩

/-! Definitions: timestamp fabrication in engineer_features.

`AQIFeatureEngineer.engineer_features` (feature_engineering.py lines
236-243) converts the records to a DataFrame and, when no timestamp
column exists, fabricates one with
`pd.date_range(end=datetime.now(), periods=len(df), freq=H)` and
proceeds.  Time is modelled in whole hours as an integer; `now` is the
wall-clock hour passed in explicitly. -/

/-- Synthetic hourly timestamp column
`pd.date_range(end=now, periods=n, freq=H)`
(feature_engineering.py line 240): `n` hourly timestamps ending at `now`. -/
def fabricateTimestamps (now : ℤ) (n : ℕ) : List ℤ :=
  (List.range n).map fun (i : ℕ) => now - ((n : ℤ) - 1 - (i : ℤ))

/-- Timestamp-ensuring step of `engineer_features` (lines 239-240):
keep a present timestamp column, otherwise fabricate one. -/
def ensureTimestampColumn (now : ℤ) (hasTimestampCol : Bool)
    (given : List ℤ) (n : ℕ) : List ℤ :=
  if hasTimestampCol then given else fabricateTimestamps now n

/-! Supporting lemmas. -/

lemma windowSlice_length (xs : List ℚ) (w i : ℕ) (hi : i < xs.length) :
    (windowSlice xs w i).length = min (i + 1) w := by
  simp only [windowSlice, List.length_drop, List.length_take]
  omega

lemma getElem?_isSome_iff (xs : List ℚ) (i : ℕ) :
    (xs[i]?).isSome ↔ i < xs.length := by
  constructor
  · intro h
    by_contra hc
    rw [List.getElem?_eq_none (by omega)] at h
    simp at h
  · intro h
    rw [List.getElem?_eq_getElem h]
    rfl

lemma lagCell_isSome_iff (xs : List ℚ) (lag i : ℕ) (hi : i < xs.length) :
    (lagCell xs lag i).isSome ↔ lag ≤ i := by
  unfold lagCell
  split_ifs with h
  · simp [getElem?_isSome_iff, h]
    omega
  · simp
    omega

lemma windowSlice_ne_nil (xs : List ℚ) (w i : ℕ) (hi : i < xs.length)
    (hw : 1 ≤ w) : windowSlice xs w i ≠ [] := by
  intro h
  have := windowSlice_length xs w i hi
  rw [h] at this
  simp only [List.length_nil] at this
  omega

lemma rollingMeanCell_isSome (xs : List ℚ) (w i : ℕ) (hi : i < xs.length)
    (hw : 1 ≤ w) : (rollingMeanCell xs w i).isSome := by
  simp [rollingMeanCell, windowSlice_ne_nil xs w i hi hw]

lemma rollingMinCell_isSome (xs : List ℚ) (w i : ℕ) (hi : i < xs.length)
    (hw : 1 ≤ w) : (rollingMinCell xs w i).isSome := by
  simpa [rollingMinCell, ← Option.ne_none_iff_isSome, List.min?_eq_none_iff]
    using windowSlice_ne_nil xs w i hi hw

lemma rollingMaxCell_isSome (xs : List ℚ) (w i : ℕ) (hi : i < xs.length)
    (hw : 1 ≤ w) : (rollingMaxCell xs w i).isSome := by
  simpa [rollingMaxCell, ← Option.ne_none_iff_isSome, List.max?_eq_none_iff]
    using windowSlice_ne_nil xs w i hi hw

lemma rollingStdCell_isSome_iff (xs : List ℚ) (w i : ℕ) (hi : i < xs.length)
    (hw : 2 ≤ w) : (rollingStdCell xs w i).isSome ↔ 1 ≤ i := by
  have hlen := windowSlice_length xs w i hi
  unfold rollingStdCell
  split_ifs with h
  · simp
    omega
  · simp
    omega

lemma negShiftCell_isSome_iff (xs : List ℚ) (horizon i : ℕ) :
    (negShiftCell xs horizon i).isSome ↔ i + horizon < xs.length := by
  unfold negShiftCell
  exact getElem?_isSome_iff xs (i + horizon)

lemma rowComplete_iff (c : List ℚ) (i : ℕ) (hi : i < c.length) :
    rowComplete c i = true ↔ 24 ≤ i := by
  unfold rowComplete
  rw [Bool.and_eq_true, List.all_eq_true, List.all_eq_true]
  constructor
  · rintro ⟨hlag, _⟩
    exact (lagCell_isSome_iff c 24 i hi).mp (hlag 24 (by simp [lags]))
  · intro h24
    constructor
    · intro lag hl
      have hl24 : lag ≤ 24 := by
        simp only [lags, List.mem_cons, List.not_mem_nil, or_false] at hl
        rcases hl with rfl | rfl | rfl | rfl <;> omega
      exact (lagCell_isSome_iff c lag i hi).mpr (by omega)
    · intro w hw
      have hw3 : 3 ≤ w := by
        simp only [windows, List.mem_cons, List.not_mem_nil, or_false] at hw
        rcases hw with rfl | rfl | rfl | rfl <;> omega
      rw [Bool.and_eq_true, Bool.and_eq_true, Bool.and_eq_true]
      exact ⟨⟨⟨rollingMeanCell_isSome c w i hi (by omega),
        (rollingStdCell_isSome_iff c w i hi (by omega)).mpr (by omega)⟩,
        rollingMinCell_isSome c w i hi (by omega)⟩,
        rollingMaxCell_isSome c w i hi (by omega)⟩

lemma normalize_features_fit_unfold (sp : Option ScalerParams)
    (X : List (List ℚ)) :
    normalize_features sp X true =
      (some (fitParams X), Except.ok (X.map (zscoreRow (fitParams X)))) :=
  rfl

/-! Theorems about the claimed properties. -/

/-- C1 counterexample: the rolling standard-deviation column is NOT defined
at every row — at row 0 (window of a single observation, sample std with
ddof = 1) it is NaN, even though `min_periods = 1`; here for the
configured window 3 on the input series `[1, 2]`. -/
theorem rolling_std_row0_undefined :
    (3 : ℕ) ∈ windows ∧ 0 < [(1 : ℚ), 2].length ∧
    rollingStdCell [(1 : ℚ), 2] 3 0 = none := by decide

/-- C1 amended: the rolling mean, min and max columns are defined at every
row including row 0 (fewer-than-window rows fall back to the available-so-far
samples); the rolling standard-deviation column is defined at a row if and
only if the row index is at least 1, the sample std of the single
observation at row 0 being NaN. -/
theorem rolling_columns_definedness (xs : List ℚ) (w i : ℕ)
    (hw : w ∈ windows) (hi : i < xs.length) :
    (rollingMeanCell xs w i).isSome ∧
    (rollingMinCell xs w i).isSome ∧
    (rollingMaxCell xs w i).isSome ∧
    ((rollingStdCell xs w i).isSome ↔ 1 ≤ i) := by
  have hw3 : 3 ≤ w := by
    simp only [windows, List.mem_cons, List.not_mem_nil, or_false] at hw
    rcases hw with h | h | h | h <;> omega
  exact ⟨rollingMeanCell_isSome xs w i hi (by omega),
    rollingMinCell_isSome xs w i hi (by omega),
    rollingMaxCell_isSome xs w i hi (by omega),
    rollingStdCell_isSome_iff xs w i hi (by omega)⟩

/-- Witness for `rolling_columns_definedness` at `xs = [1, 2]`, `w = 3`,
`i = 1`. -/
theorem rolling_columns_definedness_witness :
    ((3 : ℕ) ∈ windows ∧ 1 < [(1 : ℚ), 2].length) ∧
    ((rollingMeanCell [(1 : ℚ), 2] 3 1).isSome ∧
     (rollingMinCell [(1 : ℚ), 2] 3 1).isSome ∧
     (rollingMaxCell [(1 : ℚ), 2] 3 1).isSome ∧
     ((rollingStdCell [(1 : ℚ), 2] 3 1).isSome ↔ 1 ≤ 1)) :=
  ⟨⟨by decide, by decide⟩,
   rolling_columns_definedness [(1 : ℚ), 2] 3 1 (by decide) (by decide)⟩

/-- C2: the AQI-to-category mapping is a deterministic, total,
non-overlapping partition of the rationals into six ordered bands with upper
bounds 50/100/150/200/300 inclusive: the Predictor level index is 0..5
exactly on the six bands in order, the category of 50 is Good, of 50.01 is
Moderate, and of 300.01 is Hazardous, in both the Predictor and the
Trainer mapping. -/
theorem aqi_category_partition :
    (∀ x : ℚ,
      ((predictor_get_aqi_category x).level = 0 ↔ x ≤ 50) ∧
      ((predictor_get_aqi_category x).level = 1 ↔ 50 < x ∧ x ≤ 100) ∧
      ((predictor_get_aqi_category x).level = 2 ↔ 100 < x ∧ x ≤ 150) ∧
      ((predictor_get_aqi_category x).level = 3 ↔ 150 < x ∧ x ≤ 200) ∧
      ((predictor_get_aqi_category x).level = 4 ↔ 200 < x ∧ x ≤ 300) ∧
      ((predictor_get_aqi_category x).level = 5 ↔ 300 < x)) ∧
    (predictor_get_aqi_category 50).name = "Good" ∧
    (predictor_get_aqi_category (5001/100)).name = "Moderate" ∧
    (predictor_get_aqi_category (30001/100)).name = "Hazardous" ∧
    get_aqi_category 50 = "Good" ∧
    get_aqi_category (5001/100) = "Moderate" ∧
    get_aqi_category (30001/100) = "Hazardous" := by
  refine ⟨fun x => ?_, by norm_num [predictor_get_aqi_category],
    by norm_num [predictor_get_aqi_category],
    by norm_num [predictor_get_aqi_category],
    by norm_num [get_aqi_category], by norm_num [get_aqi_category],
    by norm_num [get_aqi_category]⟩
  unfold predictor_get_aqi_category
  split_ifs with h1 h2 h3 h4 h5 <;>
    refine ⟨?_, ?_, ?_, ?_, ?_, ?_⟩ <;> simp <;>
    (try constructor) <;> intros <;> linarith

/-- C3: for `n` well-formed hourly records and forecast horizon 24, the
feature/target table built by `prepare_data` has exactly `n - 24 - 24`
usable rows: the first 24 rows are dropped for undefined lag features
(largest configured lag `L = 24`) and the last 24 rows for the undefined
shifted target; in particular 720 rows yield `720 - 24 - 24 = 672` rows. -/
theorem prepare_data_usable_row_count (cols : List (List ℚ))
    (target : List ℚ) (hmem : target ∈ cols)
    (hlen : ∀ c ∈ cols, c.length = target.length) :
    usableRowCount cols target 24 = target.length - 24 - 24 := by
  unfold usableRowCount
  have hstep : ∀ i ∈ Finset.range target.length,
      (usableRow cols target 24 i = true ↔ 24 ≤ i ∧ i + 24 < target.length) := by
    intro i hi
    rw [Finset.mem_range] at hi
    unfold usableRow
    rw [Bool.and_eq_true, List.all_eq_true, negShiftCell_isSome_iff]
    constructor
    · rintro ⟨hall, hsh⟩
      exact ⟨(rowComplete_iff target i (by omega)).mp (hall target hmem), hsh⟩
    · rintro ⟨h24, hsh⟩
      refine ⟨fun c hc => ?_, hsh⟩
      exact (rowComplete_iff c i (by rw [hlen c hc]; omega)).mpr h24
  rw [Finset.filter_congr hstep]
  have hico : (Finset.range target.length).filter
      (fun i => 24 ≤ i ∧ i + 24 < target.length) =
      Finset.Ico 24 (target.length - 24) := by
    ext i
    simp only [Finset.mem_filter, Finset.mem_range, Finset.mem_Ico]
    omega
  rw [hico, Nat.card_Ico]

/-- Witness for `prepare_data_usable_row_count`: a single base column of
length 49 (the smallest length with one usable row), used as its own
target. -/
theorem prepare_data_usable_row_count_witness :
    (List.replicate 49 (5 : ℚ) ∈ [List.replicate 49 (5 : ℚ)] ∧
     ∀ c ∈ [List.replicate 49 (5 : ℚ)],
       c.length = (List.replicate 49 (5 : ℚ)).length) ∧
    usableRowCount [List.replicate 49 (5 : ℚ)]
      (List.replicate 49 (5 : ℚ)) 24 = 1 := by
  refine ⟨⟨by simp, by simp⟩, ?_⟩
  have h := prepare_data_usable_row_count [List.replicate 49 (5 : ℚ)]
    (List.replicate 49 (5 : ℚ)) (by simp)
    (by intro c hc; simp at hc; simp [hc])
  simpa using h

/-- C4: for every timestamp-sorted base column and every configured lag
`lag ∈ [1, 6, 12, 24]`, the lag column is undefined at exactly the first
`lag` rows, and at every row `i ≥ lag` it equals the base value at row
`i - lag`. -/
theorem lag_column_characterization (xs : List ℚ) (lag i : ℕ)
    (_hlag : lag ∈ lags) (hi : i < xs.length) :
    (i < lag → lagCell xs lag i = none) ∧
    (lag ≤ i → lagCell xs lag i = some (xs.getD (i - lag) 0)) := by
  constructor
  · intro h
    simp [lagCell, Nat.not_le.mpr h]
  · intro h
    have hlt : i - lag < xs.length := by omega
    simp [lagCell, h, List.getElem?_eq_getElem hlt, List.getD_eq_getElem xs 0 hlt]

/-- Witness for `lag_column_characterization` at `xs = [3, 7]`, `lag = 1`. -/
theorem lag_column_characterization_witness :
    ((1 : ℕ) ∈ lags ∧ 0 < [(3 : ℚ), 7].length ∧ 1 < [(3 : ℚ), 7].length) ∧
    lagCell [(3 : ℚ), 7] 1 0 = none ∧
    lagCell [(3 : ℚ), 7] 1 1 = some 3 := by
  refine ⟨⟨by decide, by decide, by decide⟩, ?_, ?_⟩
  · exact (lag_column_characterization [(3 : ℚ), 7] 1 0 (by decide)
      (by decide)).1 (by decide)
  · exact (lag_column_characterization [(3 : ℚ), 7] 1 1 (by decide)
      (by decide)).2 (by decide)

/-- C5: `predict_24h` fails with the "insufficient data" error if and only
if no row of the feature table has every feature defined; and appending a
row shows the prediction comes from the most recent feature-complete row:
a complete new last row is the one predicted from, an incomplete one leaves
the result unchanged. -/
theorem predict_insufficient_data_iff (model : List ℚ → ℚ)
    (scaler : Option ScalerParams) (X : List FeatureRow) :
    (predict_24h_core model scaler X = Except.error insufficientDataMsg ↔
      ∀ r ∈ X, rowAllDefined r = false) ∧
    (∀ r, predict_24h_core model scaler (X ++ [r]) =
      if rowAllDefined r then Except.ok (forecastOfRow model scaler r)
      else predict_24h_core model scaler X) ∧
    ((∃ r ∈ X, rowAllDefined r = true) →
      ∃ f, predict_24h_core model scaler X = Except.ok f) := by
  refine ⟨?_, ?_, ?_⟩
  · unfold predict_24h_core
    rcases h : (X.filter rowAllDefined).getLast? with _ | r
    · simp only [List.getLast?_eq_none_iff, List.filter_eq_nil_iff] at h
      simp only [true_iff]
      intro r hr
      exact Bool.eq_false_iff.mpr fun hc => h r hr hc
    · simp only [reduceCtorEq, false_iff, not_forall]
      have hmem : r ∈ X.filter rowAllDefined :=
        List.mem_of_getLast?_eq_some h
      rw [List.mem_filter] at hmem
      exact ⟨r, hmem.1, by simp [hmem.2]⟩
  · intro r
    unfold predict_24h_core
    rw [List.filter_append]
    rcases hr : rowAllDefined r with _ | _
    · simp [hr]
    · simp only [hr, List.filter_cons, hr, if_pos, List.filter_nil,
        List.getLast?_concat]
  · rintro ⟨r, hr, hc⟩
    unfold predict_24h_core
    rcases h : (X.filter rowAllDefined).getLast? with _ | r'
    · rw [List.getLast?_eq_none_iff, List.filter_eq_nil_iff] at h
      exact absurd hc (by simp [h r hr])
    · exact ⟨_, rfl⟩

/-- Witness for `predict_insufficient_data_iff` at a two-row table whose
first row is incomplete and whose second row is complete. -/
theorem predict_insufficient_data_iff_witness :
    (¬ (predict_24h_core (fun _ => 42) none [[none], [some 1]] =
        Except.error insufficientDataMsg) ∧
      ¬ ∀ r ∈ [[none], [some (1 : ℚ)]], rowAllDefined r = false) ∧
    predict_24h_core (fun _ => 42) none ([[none]] ++ [[some (1 : ℚ)]]) =
      Except.ok (forecastOfRow (fun _ => 42) none [some 1]) ∧
    ∃ f, predict_24h_core (fun _ => 42) none [[none], [some (1 : ℚ)]] =
      Except.ok f := by
  have h := predict_insufficient_data_iff (fun _ => 42) none
    [[none], [some (1 : ℚ)]]
  refine ⟨⟨fun hc => ?_, fun hc => ?_⟩, ?_, ?_⟩
  · exact absurd (h.1.mp hc [some 1] (by simp)) (by decide)
  · exact absurd (hc [some 1] (by simp)) (by decide)
  · have h2 := (predict_insufficient_data_iff (fun _ => 42) none
      [[none]]).2.1 [some 1]
    rw [h2, if_pos (by decide)]
  · exact h.2.2 ⟨[some 1], by simp, by decide⟩

/-- C6: `normalize_features` raises the "not fitted" error if and only if
called with `fit=False` while no parameters are stored; on that error the
stored parameters are unchanged; and every `fit=True` call stores the
mean/std of its input and returns the normalized table, never this
error. -/
theorem normalize_not_fitted_error (sp : Option ScalerParams)
    (X : List (List ℚ)) (fit : Bool) :
    ((normalize_features sp X fit).2 = Except.error notFittedMsg ↔
      fit = false ∧ sp = none) ∧
    ((normalize_features sp X fit).2 = Except.error notFittedMsg →
      (normalize_features sp X fit).1 = sp) ∧
    (fit = true →
      (normalize_features sp X fit).1 = some (fitParams X) ∧
      (normalize_features sp X fit).2 =
        Except.ok (X.map (zscoreRow (fitParams X)))) := by
  cases fit <;> cases sp <;>
    simp [normalize_features]

/-- Witness for `normalize_not_fitted_error`: with nothing stored, a
`fit=False` call on `[[1, 2]]` errors and leaves the state empty. -/
theorem normalize_not_fitted_error_witness :
    (normalize_features none [[(1 : ℚ), 2]] false).2 =
      Except.error notFittedMsg ∧
    (normalize_features none [[(1 : ℚ), 2]] false).1 = none :=
  ⟨(normalize_not_fitted_error none [[(1 : ℚ), 2]] false).1.mpr ⟨rfl, rfl⟩,
   (normalize_not_fitted_error none [[(1 : ℚ), 2]] false).2.1
     ((normalize_not_fitted_error none [[(1 : ℚ), 2]] false).1.mpr
       ⟨rfl, rfl⟩)⟩

/-- C7: `train` splits by position, not randomly: with
`k = ⌊n * (1 - test_size)⌋`, the training split consists of exactly the
first `k` rows in order and the test split of exactly the remaining
(chronologically latest) rows in order; with `normalize=True` the
mean/std are fitted from the training split only and that one scaler is
applied to both splits. -/
theorem train_positional_split (X : List (List ℚ)) (y : List ℚ)
    (test_size : ℚ) (normalize : Bool) :
    (train_split_normalize X y test_size normalize).X_train.length =
      min (split_index X test_size) X.length ∧
    (train_split_normalize X y test_size normalize).X_test.length =
      X.length - split_index X test_size ∧
    (∀ i, i < min (split_index X test_size) X.length →
      (train_split_normalize X y test_size normalize).X_train[i]? =
        (X[i]?).map fun row =>
          if normalize then
            zscoreRow (fitParams (X.take (split_index X test_size))) row
          else row) ∧
    (∀ j, j < X.length - split_index X test_size →
      (train_split_normalize X y test_size normalize).X_test[j]? =
        (X[split_index X test_size + j]?).map fun row =>
          if normalize then
            zscoreRow (fitParams (X.take (split_index X test_size))) row
          else row) ∧
    (train_split_normalize X y test_size normalize).y_train =
      y.take (split_index X test_size) ∧
    (train_split_normalize X y test_size normalize).y_test =
      y.drop (split_index X test_size) ∧
    (train_split_normalize X y test_size normalize).scaler =
      (if normalize then
        some (fitParams (X.take (split_index X test_size)))
      else none) := by
  set k := split_index X test_size with hkdef
  set r := train_split_normalize X y test_size normalize with hrdef
  set p := fitParams (X.take k) with hpdef
  have htake : ∀ i, i < min k X.length → (X.take k)[i]? = X[i]? := by
    intro i hi
    exact List.getElem?_take_of_lt (by omega)
  have hdrop : ∀ j, (X.drop k)[j]? = X[k + j]? := by
    intro j
    exact List.getElem?_drop X k j
  cases normalize
  · have hXtr : r.X_train = X.take k := rfl
    have hXte : r.X_test = X.drop k := rfl
    refine ⟨?_, ?_, ?_, ?_, rfl, rfl, rfl⟩
    · rw [hXtr, List.length_take]
    · rw [hXte, List.length_drop]
    · intro i hi
      rw [hXtr, htake i hi]
      simp
    · intro j hj
      rw [hXte, hdrop j]
      simp
  · have hXtr : r.X_train = (X.take k).map (zscoreRow p) := rfl
    have hXte : r.X_test = (X.drop k).map (zscoreRow p) := rfl
    refine ⟨?_, ?_, ?_, ?_, rfl, rfl, rfl⟩
    · rw [hXtr, List.length_map, List.length_take]
    · rw [hXte, List.length_map, List.length_drop]
    · intro i hi
      rw [hXtr, List.getElem?_map, htake i hi]
      simp
    · intro j hj
      rw [hXte, List.getElem?_map, hdrop j]
      simp

/-- Witness for `train_positional_split` (all its binders are universals,
instantiated here at a 5-row table with test fraction one fifth): the
first 4 rows train, the last row tests, both z-scored with the parameters
fitted on the 4 training rows. -/
theorem train_positional_split_witness :
    (train_split_normalize [[0], [1], [2], [3], [100]]
        [10, 11, 12, 13, 14] (1 / 5) true).y_train = [10, 11, 12, 13] ∧
    (train_split_normalize [[0], [1], [2], [3], [100]]
        [10, 11, 12, 13, 14] (1 / 5) true).y_test = [14] ∧
    (train_split_normalize [[0], [1], [2], [3], [100]]
        [10, 11, 12, 13, 14] (1 / 5) true).scaler =
      some (fitParams (([[0], [1], [2], [3], [100]] :
        List (List ℚ)).take (split_index [[0], [1], [2], [3], [100]]
          (1 / 5)))) := by
  have hk : split_index ([[(0 : ℚ)], [1], [2], [3], [100]] :
      List (List ℚ)) (1 / 5) = 4 := by
    unfold split_index
    norm_num
    rfl
  have h := train_positional_split [[0], [1], [2], [3], [100]]
    [10, 11, 12, 13, 14] (1 / 5) true
  obtain ⟨h1, h2, h3, h4, h5, h6, h7⟩ := h
  refine ⟨?_, ?_, ?_⟩
  · rw [h5, hk]
    decide
  · rw [h6, hk]
    decide
  · rw [h7]
    simp

/-- C8: whenever the single-horizon prediction succeeds,
`predict_hourly_sequence` returns exactly `hours_ahead` entries with hour
offsets `1, 2, ..., hours_ahead` in order, every entry carrying the same
predicted value, category name and category level as that single
prediction (the flat-line approximation). -/
theorem predict_sequence_flat_line (model : List ℚ → ℚ)
    (scaler : Option ScalerParams) (X : List FeatureRow)
    (hours_ahead : ℕ) (base : Forecast)
    (hbase : predict_24h_core model scaler X = Except.ok base) :
    ∃ l, predict_hourly_sequence model scaler X hours_ahead =
        Except.ok l ∧
      l.length = hours_ahead ∧
      ∀ j, j < hours_ahead → l[j]? = some
        ⟨j + 1, base.predicted_aqi, base.category, base.category_level⟩ := by
  refine ⟨(List.range hours_ahead).map fun h =>
    ⟨h + 1, base.predicted_aqi, base.category, base.category_level⟩,
    ?_, ?_, ?_⟩
  · unfold predict_hourly_sequence
    rw [hbase]
    rfl
  · simp
  · intro j hj
    rw [List.getElem?_map, List.getElem?_range hj]
    rfl

/-- Witness for `predict_sequence_flat_line`: a constant model predicting
42 on a one-complete-row table, 3 hours ahead. -/
theorem predict_sequence_flat_line_witness :
    predict_24h_core (fun _ => 42) none [[some (1 : ℚ)]] =
      Except.ok ⟨42, "Good", 0⟩ ∧
    ∃ l, predict_hourly_sequence (fun _ => 42) none [[some (1 : ℚ)]] 3 =
        Except.ok l ∧
      l.length = 3 ∧
      ∀ j, j < 3 → l[j]? = some ⟨j + 1, 42, "Good", 0⟩ := by
  have hbase : predict_24h_core (fun _ => 42) none [[some (1 : ℚ)]] =
      Except.ok ⟨42, "Good", 0⟩ := by
    rfl
  exact ⟨hbase,
    predict_sequence_flat_line (fun _ => 42) none [[some 1]] 3
      ⟨42, "Good", 0⟩ hbase⟩

/-- C9: the Trainer category function and the Predictor category function
implement the same partition: for every AQI value, the position of the
Trainer band name in `categories_order` equals the level index the
Predictor assigns. -/
theorem trainer_predictor_categories_agree (x : ℚ) :
    categories_order.indexOf (get_aqi_category x) =
      (predictor_get_aqi_category x).level := by
  unfold categories_order get_aqi_category predictor_get_aqi_category
  split_ifs <;> rfl

/-- C10: `engineer_features` does not reject inputs lacking a timestamp
field: for every non-empty input of `n` records it fabricates a synthetic
timestamp column with exactly one timestamp per record, hourly spacing
(consecutive entries differ by one hour), ending at the current time, and
proceeds with that column. -/
theorem engineer_features_fabricates_timestamps (now : ℤ) (given : List ℤ)
    (n : ℕ) (hn : 1 ≤ n) :
    ensureTimestampColumn now false given n = fabricateTimestamps now n ∧
    (fabricateTimestamps now n).length = n ∧
    (fabricateTimestamps now n).getLast? = some now ∧
    ∀ i, i + 1 < n → (fabricateTimestamps now n)[i + 1]? =
      ((fabricateTimestamps now n)[i]?).map (· + 1) := by
  refine ⟨rfl, by simp [fabricateTimestamps], ?_, ?_⟩
  · rw [List.getLast?_eq_getElem?]
    have hlen : (fabricateTimestamps now n).length = n := by
      simp [fabricateTimestamps]
    rw [hlen]
    unfold fabricateTimestamps
    rw [List.getElem?_map, List.getElem?_range (by omega), Option.map_some']
    congr 1
    omega
  · intro i hi
    unfold fabricateTimestamps
    rw [List.getElem?_map, List.getElem?_map,
      List.getElem?_range (by omega), List.getElem?_range (by omega),
      Option.map_some', Option.map_some', Option.map_some']
    congr 1
    omega

/-- Witness for `engineer_features_fabricates_timestamps` at `now = 100`,
three records and no given column. -/
theorem engineer_features_fabricates_timestamps_witness :
    (1 ≤ 3) ∧
    (ensureTimestampColumn 100 false [] 3 = fabricateTimestamps 100 3 ∧
     (fabricateTimestamps 100 3).length = 3 ∧
     (fabricateTimestamps 100 3).getLast? = some 100 ∧
     ∀ i, i + 1 < 3 → (fabricateTimestamps 100 3)[i + 1]? =
       ((fabricateTimestamps 100 3)[i]?).map (· + 1)) :=
  ⟨by decide, engineer_features_fabricates_timestamps 100 [] 3 (by decide)⟩

end Zephra
